import Mathlib

/-!
Shallow embedding of the memory decision pipeline (Extractor-Scorer-Deduper
service). Python floats are modelled as rationals; MongoDB collections as
lists inside an explicit state record; fallible store operations take an
explicit success/failure oracle. Numeric formatting inside human-readable
reason strings is elided (the reason text keeps its fixed prefix parts);
no theorem below depends on the elided digits.

Arithmetic note: the Batteries field operations on Rat are marked
irreducible, so the embedding uses kernel-computable wrappers (qadd, qmul,
Rat.divInt, mkRat) that are proved equal to the field operations; this
keeps every definition evaluable by the decide tactic.
-/

namespace MemSvc

/-- Kernel-computable addition on the rationals, proved equal to + below. -/
def qadd (a b : ℚ) : ℚ :=
  Rat.divInt (a.num * (b.den : ℤ) + b.num * (a.den : ℤ)) ((a.den : ℤ) * (b.den : ℤ))

/-- Kernel-computable multiplication on the rationals, proved equal to * below. -/
def qmul (a b : ℚ) : ℚ :=
  Rat.divInt (a.num * b.num) ((a.den : ℤ) * (b.den : ℤ))

/-- Round half to even (banker rounding, as used by the Python round builtin),
computed on the integer numerator and denominator. -/
def roundHalfEven (q : ℚ) : ℤ :=
  let d : ℤ := (q.den : ℤ)
  let f : ℤ := q.num.fdiv d
  let r : ℤ := q.num.fmod d
  if 2 * r < d then f
  else if d < 2 * r then f + 1
  else if f % 2 = 0 then f else f + 1

/-- Embedding of the Python expression round(x, 3). -/
def rnd3 (x : ℚ) : ℚ := Rat.divInt (roundHalfEven (qmul x 1000)) 1000

/-- Whitespace tokenizer on a character list, dropping empty pieces; together
with lower-casing this embeds the Python expression text.lower().split(). -/
def tokensAux : List Char → List Char → List String
  | [], acc => if acc.isEmpty then [] else [String.mk acc.reverse]
  | c :: cs, acc =>
    if c.isWhitespace then
      if acc.isEmpty then tokensAux cs [] else String.mk acc.reverse :: tokensAux cs []
    else tokensAux cs (c :: acc)

/-- Word set of a text: set(text.lower().split()) from deduper.py. -/
def wordSet (t : String) : Finset String :=
  (tokensAux (t.data.map Char.toLower) []).toFinset

/-- MemoryDeduper._calculate_text_similarity from deduper.py: Jaccard
coefficient over lower-cased whitespace-tokenized word sets. -/
def calculate_text_similarity (t1 t2 : String) : ℚ :=
  let words1 := wordSet t1
  let words2 := wordSet t2
  if words1 = ∅ ∨ words2 = ∅ then 0
  else
    let inter := (words1 ∩ words2).card
    let uni := (words1 ∪ words2).card
    if 0 < uni then mkRat (inter : ℤ) uni else 0

/-- MemoryType enum from models.py. -/
inductive MemoryType
  | preference
  | goal
  | commitment
  | skill
  | feedback
deriving DecidableEq

/-- The action field of MemoryDecision (a string in models.py). -/
inductive Action
  | keep
  | buffer
  | reject
  | merge
deriving DecidableEq

/-- CandidateMemory from models.py (timestamps, source turn and extraction
evidence are carried nowhere into the decision logic and are omitted). -/
structure CandidateMemory where
  id : Option String
  memory_type : MemoryType
  content : String
  confidence : ℚ
  relevance : ℚ
  specificity : ℚ
  salience_score : ℚ
deriving DecidableEq

/-- MemoryDecision from models.py. -/
structure MemoryDecision where
  action : Action
  reason : String
  merged_with : Option String := none
  admin_notes : Option String := none
deriving DecidableEq

/-- StoredMemory from models.py. -/
structure StoredMemory where
  id : Option String
  candidate : CandidateMemory
  decision : MemoryDecision
  final_content : String
  embedding : Option (List ℚ)
deriving DecidableEq

/-- BufferedMemory from models.py. -/
structure BufferedMemory where
  id : Option String
  candidate : CandidateMemory
  buffer_reason : String
  buffer_score : ℚ
deriving DecidableEq

/-- Scoring and dedup configuration from config.py (thresholds dict is total
over the five memory types, so it is a function here). -/
structure Config where
  w_relevance : ℚ
  w_specificity : ℚ
  w_confidence : ℚ
  thresholds : MemoryType → ℚ
  buffer_threshold : ℚ
  similarity_threshold : ℚ

/-- Default per-type thresholds from config.py. -/
def defaultThresholds : MemoryType → ℚ
  | MemoryType.preference => mkRat 1 2
  | MemoryType.goal => mkRat 3 5
  | MemoryType.commitment => mkRat 7 10
  | MemoryType.skill => mkRat 3 5
  | MemoryType.feedback => mkRat 1 2

/-- Default configuration values from config.py. -/
def defaultConfig : Config :=
  { w_relevance := mkRat 2 5
    w_specificity := mkRat 3 10
    w_confidence := mkRat 3 10
    thresholds := defaultThresholds
    buffer_threshold := mkRat 1 2
    similarity_threshold := mkRat 17 20 }

/-- MemoryScorer._calculate_salience_score from scorer.py. -/
def calculate_salience_score (cfg : Config) (c : CandidateMemory) : ℚ :=
  rnd3 (qadd (qadd (qmul cfg.w_relevance c.relevance)
                   (qmul cfg.w_specificity c.specificity))
             (qmul cfg.w_confidence c.confidence))

/-- Stable insertion into a list sorted by score descending: an element is
placed after every element with a greater-or-equal score. -/
def insertByScoreDesc (x : CandidateMemory × ℚ) :
    List (CandidateMemory × ℚ) → List (CandidateMemory × ℚ)
  | [] => [x]
  | y :: ys => if x.2 ≤ y.2 then y :: insertByScoreDesc x ys else x :: y :: ys

/-- Stable sort by score descending (the Python list.sort with reverse=True
is stable; any stable sort produces the same list). -/
def sortByScoreDesc (l : List (CandidateMemory × ℚ)) : List (CandidateMemory × ℚ) :=
  l.foldl (fun acc x => insertByScoreDesc x acc) []

/-- MemoryScorer.score_memories from scorer.py: write the salience score into
each candidate, pair it with the score, sort by score descending. -/
def score_memories (cfg : Config) (cs : List CandidateMemory) :
    List (CandidateMemory × ℚ) :=
  sortByScoreDesc (cs.map (fun c =>
    ({ c with salience_score := calculate_salience_score cfg c },
      calculate_salience_score cfg c)))

/-- MemoryScorer._evaluate_candidate from scorer.py. -/
def evaluate_candidate (cfg : Config) (c : CandidateMemory) (score : ℚ) :
    MemoryDecision :=
  let threshold := cfg.thresholds c.memory_type
  if threshold ≤ score then
    { action := Action.keep, reason := "Score meets type threshold" }
  else if cfg.buffer_threshold ≤ score then
    { action := Action.buffer,
      reason := "Score below type threshold but above buffer threshold" }
  else
    { action := Action.reject, reason := "Score below buffer threshold" }

/-- MemoryScorer.make_decisions from scorer.py. -/
def make_decisions (cfg : Config) (scored : List (CandidateMemory × ℚ)) :
    List MemoryDecision :=
  scored.map (fun p => evaluate_candidate cfg p.1 p.2)

/-- The inner loop of MemoryDeduper._deduplicate_against_stored: track the
single best (highest, strictly improving) stored match of a candidate,
skipping stored memories without an embedding. -/
def bestStoredMatch (c : CandidateMemory) (stored : List StoredMemory) :
    ℚ × Option StoredMemory :=
  stored.foldl
    (fun acc s =>
      match s.embedding with
      | none => acc
      | some _ =>
        let sim := calculate_text_similarity c.content s.final_content
        if acc.1 < sim then (sim, some s) else acc)
    (0, none)

/-- MemoryDeduper._deduplicate_against_stored from deduper.py. -/
def dedupAgainstStored (thr : ℚ) :
    List CandidateMemory → List StoredMemory →
    List MemoryDecision × List CandidateMemory
  | [], _ => ([], [])
  | c :: cs, stored =>
    let rest := dedupAgainstStored thr cs stored
    let best := bestStoredMatch c stored
    if thr ≤ best.1 then
      ({ action := Action.merge
         reason := "Similarity with stored memory " ++
           (best.2.map (fun s => s.final_content)).getD ""
         merged_with := (best.2.map (fun s => s.id)).getD none } :: rest.1,
       rest.2)
    else (rest.1, c :: rest.2)

/-- MemoryDeduper._deduplicate_candidates from deduper.py: the indexed double
loop with the processed set. Only the inner index j is checked against the
processed set inside the inner loop, exactly as in the source. -/
def dedupCandidates (thr : ℚ) (cs : List CandidateMemory) : List MemoryDecision :=
  let n := cs.length
  ((List.range n).foldl
    (fun (st : List MemoryDecision × List ℕ) i =>
      if i ∈ st.2 then st
      else
        (List.range' (i + 1) (n - (i + 1))).foldl
          (fun (st2 : List MemoryDecision × List ℕ) j =>
            if j ∈ st2.2 then st2
            else
              match cs.get? i, cs.get? j with
              | some c1, some c2 =>
                let sim := calculate_text_similarity c1.content c2.content
                if thr ≤ sim then
                  let keepC :=
                    if c2.salience_score ≤ c1.salience_score then c1 else c2
                  let mergeC :=
                    if c2.salience_score ≤ c1.salience_score then c2 else c1
                  let mergeIdx :=
                    if c2.salience_score ≤ c1.salience_score then j else i
                  (st2.1 ++
                    [{ action := Action.merge
                       reason := "Similarity with candidate " ++ mergeC.content
                       merged_with := keepC.id }],
                   mergeIdx :: st2.2)
                else st2
              | _, _ => st2)
          st)
    ([], [])).1

/-- MemoryDeduper.deduplicate_memories from deduper.py: pass 1 against the
stored corpus, then, when more than one candidate remains, pass 2 within the
remaining batch. The remaining list of pass 1 is returned unchanged. -/
def deduplicate_memories (thr : ℚ) (candidates : List CandidateMemory)
    (stored : List StoredMemory) :
    List MemoryDecision × List CandidateMemory :=
  let p1 := dedupAgainstStored thr candidates stored
  let decisions :=
    if 1 < p1.2.length then p1.1 ++ dedupCandidates thr p1.2 else p1.1
  (decisions, p1.2)

/-- Audit log entry written by MemoryStorage._log_audit in storage.py. -/
structure AuditEntry where
  action : String
  memory_id : String
  content : String
  decision : Option MemoryDecision

/-- The MongoDB collections of storage.py as an explicit state, plus a
counter supplying fresh generated ids. -/
structure StoreState where
  stored : List StoredMemory
  buffered : List BufferedMemory
  audit : List AuditEntry
  next_id : ℕ

/-- Generated document id. -/
def freshId (n : ℕ) : String := "mem-" ++ toString n

/-- MemoryStorage.store_memory from storage.py. The insert can fail (the
insertOk oracle); on failure the exception propagates to the caller and no
state changes. The placeholder embedding vector is modelled by some []. -/
def store_memory (s : StoreState) (insertOk : Bool) (c : CandidateMemory)
    (d : MemoryDecision) (final_content : String) :
    Option (StoreState × String) :=
  if insertOk then
    let mid := freshId s.next_id
    some
      ({ s with
          stored := s.stored ++
            [{ id := some mid, candidate := c, decision := d,
               final_content := final_content, embedding := some [] }]
          audit := s.audit ++
            [{ action := "store", memory_id := mid, content := c.content,
               decision := some d }]
          next_id := s.next_id + 1 }, mid)
  else none

/-- MemoryStorage.buffer_memory from storage.py. -/
def buffer_memory (s : StoreState) (insertOk : Bool) (c : CandidateMemory)
    (buffer_reason : String) (buffer_score : ℚ) :
    Option (StoreState × String) :=
  if insertOk then
    let mid := freshId s.next_id
    some
      ({ s with
          buffered := s.buffered ++
            [{ id := some mid, candidate := c, buffer_reason := buffer_reason,
               buffer_score := buffer_score }]
          audit := s.audit ++
            [{ action := "buffer", memory_id := mid, content := c.content,
               decision := none }]
          next_id := s.next_id + 1 }, mid)
  else none

/-- MemoryStorage.approve_buffered_memory from storage.py: look up the
buffered record; if absent return false; otherwise build a keep decision,
store the memory using the content of the buffered candidate, and only on
successful storage delete the buffered record and write the approve audit
entry. On storage failure the function returns false with the state intact. -/
def approve_buffered_memory (s : StoreState) (insertOk : Bool)
    (memory_id : String) (admin_notes : Option String) : StoreState × Bool :=
  match s.buffered.find? (fun b => b.id == some memory_id) with
  | none => (s, false)
  | some buf =>
    let decision : MemoryDecision :=
      { action := Action.keep, reason := "Approved by admin",
        admin_notes := admin_notes }
    match store_memory s insertOk buf.candidate decision buf.candidate.content with
    | none => (s, false)
    | some (s1, newId) =>
      let s2 :=
        { s1 with buffered := s1.buffered.eraseP (fun b => b.id == some memory_id) }
      ({ s2 with
          audit := s2.audit ++
            [{ action := "approve", memory_id := newId,
               content := buf.candidate.content, decision := some decision }] },
       true)

/-- MemoryStorage.reject_buffered_memory from storage.py: look up the
buffered record; if absent return false; otherwise write the reject audit
entry and delete the buffered record. -/
def reject_buffered_memory (s : StoreState) (memory_id : String)
    (admin_notes : Option String) : StoreState × Bool :=
  match s.buffered.find? (fun b => b.id == some memory_id) with
  | none => (s, false)
  | some buf =>
    let decision : MemoryDecision :=
      { action := Action.reject, reason := "Rejected by admin review",
        admin_notes := admin_notes }
    let s1 :=
      { s with
          audit := s.audit ++
            [({ action := "reject", memory_id := memory_id,
                content := buf.candidate.content,
                decision := some decision } : AuditEntry)] }
    ({ s1 with buffered := s1.buffered.eraseP (fun b => b.id == some memory_id) },
     true)

/-- The two admin resolution operations exposed by main.py. -/
inductive AdminAction
  | approve
  | reject
deriving DecidableEq

/-- Dispatcher for the admin resolution endpoints of main.py. -/
def resolve_buffered (s : StoreState) (insertOk : Bool) (a : AdminAction)
    (memory_id : String) (notes : Option String) : StoreState × Bool :=
  match a with
  | AdminAction.approve => approve_buffered_memory s insertOk memory_id notes
  | AdminAction.reject => reject_buffered_memory s memory_id notes

/-- Fallback decision used only to totalize list indexing; the index is
always in bounds when the pipeline runs (initial_decisions has one entry per
scored candidate). -/
def defaultDecision : MemoryDecision :=
  { action := Action.reject, reason := "" }

/-- Result of executing one decision in the loop of
DeciderService.extract_and_store: the possibly downgraded decision and the
contributions to the stored, buffered and rejected counters. -/
structure ExecResult where
  decision : MemoryDecision
  dStored : ℕ
  dBuffered : ℕ
  dRejected : ℕ

/-- One iteration of the decision loop in DeciderService.extract_and_store
(decider_service.py lines 65-101). storeRes is none on storage success and
some message on failure; on failure the decision is downgraded in place to
buffer with the storage-failure reason. The buffer branch is a plain if (not
elif), so a downgraded decision falls through to the buffering attempt; a
failed buffering attempt counts the candidate as rejected. -/
def execDecision (storeRes : Option String) (bufferOk : Bool)
    (c : CandidateMemory) (score : ℚ) (d : MemoryDecision) : ExecResult :=
  let keepStep : MemoryDecision × ℕ :=
    if d.action = Action.keep then
      match storeRes with
      | none => (d, 1)
      | some e =>
        ({ d with action := Action.buffer
                  reason := "Storage failed, buffering instead: " ++ e }, 0)
    else (d, 0)
  let d1 := keepStep.1
  if d1.action = Action.buffer then
    if bufferOk then { decision := d1, dStored := keepStep.2, dBuffered := 1, dRejected := 0 }
    else { decision := d1, dStored := keepStep.2, dBuffered := 0, dRejected := 1 }
  else if d1.action = Action.reject then
    { decision := d1, dStored := keepStep.2, dBuffered := 0, dRejected := 1 }
  else
    { decision := d1, dStored := keepStep.2, dBuffered := 0, dRejected := 0 }

/-- The decision loop of DeciderService.extract_and_store, by index i over
the scored candidates. The decision read is all_decisions[i] when i is in
bounds, else initial_decisions[i]; the in-place mutation of the decision
object is modelled by List.set on the combined list, which is also the list
the response returns. -/
def process_go (storeRes : ℕ → Option String) (bufferOk : ℕ → Bool) :
    ℕ → List (CandidateMemory × ℚ) → List MemoryDecision →
    List MemoryDecision → List MemoryDecision × ℕ × ℕ × ℕ
  | _, [], decs, _ => (decs, 0, 0, 0)
  | i, p :: rest, decs, initial =>
    let d0 := decs.getD i (initial.getD i defaultDecision)
    let r := execDecision (storeRes i) (bufferOk i) p.1 p.2 d0
    let out := process_go storeRes bufferOk (i + 1) rest (decs.set i r.decision) initial
    (out.1, r.dStored + out.2.1, r.dBuffered + out.2.2.1, r.dRejected + out.2.2.2)

/-- Step 5 of DeciderService.extract_and_store. -/
def process_decisions (storeRes : ℕ → Option String) (bufferOk : ℕ → Bool)
    (scored : List (CandidateMemory × ℚ))
    (all_decisions initial_decisions : List MemoryDecision) :
    List MemoryDecision × ℕ × ℕ × ℕ :=
  process_go storeRes bufferOk 0 scored all_decisions initial_decisions

/-- Contribution of the candidate at position k (of the scored list, read
with the loop index starting at i) to the batch counters: the execution of
that single candidate against the combined decision list, independent of
every sibling candidate. -/
def loopContribution (storeRes : ℕ → Option String) (bufferOk : ℕ → Bool)
    (i : ℕ) (scored : List (CandidateMemory × ℚ))
    (decs initial : List MemoryDecision) (k : ℕ) : ExecResult :=
  match scored[k]? with
  | some p =>
    execDecision (storeRes (i + k)) (bufferOk (i + k)) p.1 p.2
      (decs.getD (i + k) (initial.getD (i + k) defaultDecision))
  | none => { decision := defaultDecision, dStored := 0, dBuffered := 0, dRejected := 0 }

/-- ExtractionResponse from models.py. -/
structure ExtractionResponse where
  candidates : List CandidateMemory
  decisions : List MemoryDecision
  stored_count : ℕ
  buffered_count : ℕ
  rejected_count : ℕ

/-- DeciderService.extract_and_store from decider_service.py, starting from
the extracted candidate list (the Extractor is outside the claims below):
score, make initial decisions, deduplicate against the stored window and
within the batch, concatenate the decision lists, then run the decision
loop. -/
def extract_and_store (cfg : Config) (storeRes : ℕ → Option String)
    (bufferOk : ℕ → Bool) (candidates : List CandidateMemory)
    (stored_corpus : List StoredMemory) : ExtractionResponse :=
  if candidates.isEmpty then
    { candidates := [], decisions := [], stored_count := 0,
      buffered_count := 0, rejected_count := 0 }
  else
    let scored := score_memories cfg candidates
    let initial_decisions := make_decisions cfg scored
    let dd := deduplicate_memories cfg.similarity_threshold
      (scored.map Prod.fst) stored_corpus
    let all_decisions := initial_decisions ++ dd.1
    let res := process_decisions storeRes bufferOk scored all_decisions initial_decisions
    { candidates := scored.map Prod.fst
      decisions := res.1
      stored_count := res.2.1
      buffered_count := res.2.2.1
      rejected_count := res.2.2.2 }

/-- Sample candidate used by concrete evaluations: a fresh (unpersisted)
preference candidate with maximal feature scores. -/
def sampleCand : CandidateMemory :=
  { id := none, memory_type := MemoryType.preference, content := "a b",
    confidence := 1, relevance := 1, specificity := 1, salience_score := 0 }

/-- Sample stored memory with the same content as sampleCand. -/
def sampleStored : StoredMemory :=
  { id := some "s1", candidate := sampleCand,
    decision := { action := Action.keep, reason := "" },
    final_content := "a b", embedding := some [] }

/-- First of two identical candidates in one batch. -/
def dupA : CandidateMemory :=
  { id := some "c0", memory_type := MemoryType.preference, content := "a b",
    confidence := 1, relevance := 1, specificity := 1,
    salience_score := mkRat 1 2 }

/-- Second of two identical candidates in one batch. -/
def dupB : CandidateMemory := { dupA with id := some "c1" }

/-- Three pairwise identical candidates; the middle one carries the highest
salience and the last one the lowest. -/
def triA : CandidateMemory := { dupA with salience_score := mkRat 1 2 }

/-- Second element of the triple, highest salience. -/
def triB : CandidateMemory := { dupA with id := some "c1", salience_score := mkRat 9 10 }

/-- Third element of the triple, lowest salience. -/
def triC : CandidateMemory := { dupA with id := some "c2", salience_score := mkRat 2 5 }

/-- Candidate sitting in the review buffer for the admin-resolution claims. -/
def bufCand : CandidateMemory :=
  { id := none, memory_type := MemoryType.preference,
    content := "I like short walks.",
    confidence := 1, relevance := 1, specificity := 1,
    salience_score := mkRat 1 2 }

/-- Buffered record holding bufCand. -/
def bufRec : BufferedMemory :=
  { id := some "b1", candidate := bufCand, buffer_reason := "pending review",
    buffer_score := mkRat 1 2 }

/-- Store state with exactly one buffered record and nothing else. -/
def bufState : StoreState :=
  { stored := [], buffered := [bufRec], audit := [], next_id := 0 }

/-- Plain keep decision used by concrete evaluations. -/
def keepDec : MemoryDecision := { action := Action.keep, reason := "high score" }

/-- Candidate of type goal, whose default acceptance threshold lies strictly
above the default buffer threshold. -/
def goalCand : CandidateMemory := { sampleCand with memory_type := MemoryType.goal }

/-- Configuration putting the whole scoring weight on relevance; its weights
are nonnegative and sum to one. -/
def relevanceOnlyConfig : Config :=
  { w_relevance := 1, w_specificity := 0, w_confidence := 0,
    thresholds := defaultThresholds, buffer_threshold := mkRat 1 2,
    similarity_threshold := mkRat 17 20 }

theorem qmul_eq (a b : ℚ) : qmul a b = a * b := by
  have ha : ((a.den : ℚ)) ≠ 0 := Nat.cast_ne_zero.mpr a.den_nz
  have hb : ((b.den : ℚ)) ≠ 0 := Nat.cast_ne_zero.mpr b.den_nz
  rw [qmul, Rat.divInt_eq_div]
  push_cast
  conv_rhs => rw [← Rat.num_div_den a, ← Rat.num_div_den b]
  rw [div_mul_div_comm]

theorem qadd_eq (a b : ℚ) : qadd a b = a + b := by
  have ha : ((a.den : ℚ)) ≠ 0 := Nat.cast_ne_zero.mpr a.den_nz
  have hb : ((b.den : ℚ)) ≠ 0 := Nat.cast_ne_zero.mpr b.den_nz
  rw [qadd, Rat.divInt_eq_div]
  push_cast
  conv_rhs => rw [← Rat.num_div_den a, ← Rat.num_div_den b]
  rw [div_add_div _ _ ha hb]
  ring_nf

theorem roundHalfEven_bounds {y : ℚ} (h0 : 0 ≤ y) (h1 : y ≤ 1000) :
    0 ≤ roundHalfEven y ∧ roundHalfEven y ≤ 1000 := by
  have hdpos : (0 : ℤ) < (y.den : ℤ) := Int.natCast_pos.mpr y.den_pos
  have hn0 : (0 : ℤ) ≤ y.num := Rat.num_nonneg.mpr h0
  have hn1000 : y.num ≤ 1000 * (y.den : ℤ) := by
    have := Rat.le_def.mp h1
    simpa using this
  have hid : (y.den : ℤ) * (y.num.fdiv (y.den : ℤ)) + y.num.fmod (y.den : ℤ) = y.num :=
    Int.fdiv_add_fmod y.num (y.den : ℤ)
  have hr0 : (0 : ℤ) ≤ y.num.fmod (y.den : ℤ) := Int.fmod_nonneg hn0 hdpos.le
  have hrlt : y.num.fmod (y.den : ℤ) < (y.den : ℤ) := Int.fmod_lt_of_pos y.num hdpos
  have hf0 : (0 : ℤ) ≤ y.num.fdiv (y.den : ℤ) := Int.fdiv_nonneg hn0 hdpos.le
  set d : ℤ := (y.den : ℤ) with hd
  set f : ℤ := y.num.fdiv d with hfdef
  set r : ℤ := y.num.fmod d with hrdef
  have hfle : f ≤ 1000 := by
    have hdf : d * f ≤ d * 1000 := by linarith
    exact le_of_mul_le_mul_left hdf hdpos
  have hfle' : d ≤ 2 * r → f + 1 ≤ 1000 := by
    intro h2r
    by_contra hcon
    push_neg at hcon
    have hf1000 : 1000 ≤ f := by omega
    have : d * 1000 ≤ d * f := by
      exact mul_le_mul_of_nonneg_left hf1000 hdpos.le
    have hr1 : 1 ≤ r := by omega
    linarith
  have hrhe : roundHalfEven y =
      if 2 * r < d then f else if d < 2 * r then f + 1
      else if f % 2 = 0 then f else f + 1 := rfl
  rw [hrhe]
  split_ifs with hlt hgt heven
  · exact ⟨hf0, hfle⟩
  · exact ⟨by omega, hfle' (by omega)⟩
  · exact ⟨hf0, hfle⟩
  · exact ⟨by omega, hfle' (by omega)⟩

theorem rnd3_bounds {q : ℚ} (h0 : 0 ≤ q) (h1 : q ≤ 1) :
    0 ≤ rnd3 q ∧ rnd3 q ≤ 1 := by
  have hy0 : 0 ≤ qmul q 1000 := by
    rw [qmul_eq]; positivity
  have hy1 : qmul q 1000 ≤ 1000 := by
    rw [qmul_eq]
    calc q * 1000 ≤ 1 * 1000 := by
          exact mul_le_mul_of_nonneg_right h1 (by norm_num)
    _ = 1000 := one_mul 1000
  obtain ⟨hb0, hb1⟩ := roundHalfEven_bounds hy0 hy1
  constructor
  · rw [rnd3, Rat.divInt_eq_div]
    positivity
  · rw [rnd3, Rat.divInt_eq_div]
    rw [div_le_one (by norm_num)]
    exact_mod_cast hb1

/-- C8: with the buffer threshold strictly below the type threshold, the
Scorer classifies score at or above the type threshold as keep, between the
buffer threshold (inclusive) and the type threshold as buffer, below the
buffer threshold as reject; a score exactly at the buffer threshold is
buffer, not reject. -/
theorem c8_threshold_classification (cfg : Config) (c : CandidateMemory)
    (score : ℚ) (h : cfg.buffer_threshold < cfg.thresholds c.memory_type) :
    (cfg.thresholds c.memory_type ≤ score →
      (evaluate_candidate cfg c score).action = Action.keep) ∧
    (cfg.buffer_threshold ≤ score → score < cfg.thresholds c.memory_type →
      (evaluate_candidate cfg c score).action = Action.buffer) ∧
    (score < cfg.buffer_threshold →
      (evaluate_candidate cfg c score).action = Action.reject) ∧
    (score = cfg.buffer_threshold →
      (evaluate_candidate cfg c score).action = Action.buffer) := by
  refine ⟨?_, ?_, ?_, ?_⟩
  · intro hk
    simp [evaluate_candidate, hk]
  · intro hb hlt
    simp [evaluate_candidate, not_le.mpr hlt, hb]
  · intro hlt
    simp [evaluate_candidate, not_le.mpr (hlt.trans h), not_le.mpr hlt]
  · intro he
    simp [evaluate_candidate, not_le.mpr (he ▸ h), le_of_eq he.symm]

/-- Witness for c8_threshold_classification: with the default configuration,
a goal candidate scoring exactly at the buffer threshold is buffered. -/
theorem c8_witness :
    defaultConfig.buffer_threshold < defaultConfig.thresholds goalCand.memory_type ∧
    (evaluate_candidate defaultConfig goalCand (mkRat 1 2)).action = Action.buffer :=
  ⟨by decide,
   (c8_threshold_classification defaultConfig goalCand (mkRat 1 2)
      (by decide)).2.2.2 (by decide)⟩

/-- C9: under nonnegative weights summing to one and feature scores in the
unit interval, the salience score is exactly the 3-decimal rounding of the
weighted sum of the three features, and it lies in the unit interval. -/
theorem c9_salience_weighted_sum_range (cfg : Config) (c : CandidateMemory)
    (hwr : 0 ≤ cfg.w_relevance) (hws : 0 ≤ cfg.w_specificity)
    (hwc : 0 ≤ cfg.w_confidence)
    (hsum : cfg.w_relevance + cfg.w_specificity + cfg.w_confidence = 1)
    (hr0 : 0 ≤ c.relevance) (hr1 : c.relevance ≤ 1)
    (hs0 : 0 ≤ c.specificity) (hs1 : c.specificity ≤ 1)
    (hc0 : 0 ≤ c.confidence) (hc1 : c.confidence ≤ 1) :
    calculate_salience_score cfg c =
      rnd3 (cfg.w_relevance * c.relevance + cfg.w_specificity * c.specificity +
        cfg.w_confidence * c.confidence) ∧
    0 ≤ calculate_salience_score cfg c ∧
    calculate_salience_score cfg c ≤ 1 := by
  have heq : calculate_salience_score cfg c =
      rnd3 (cfg.w_relevance * c.relevance + cfg.w_specificity * c.specificity +
        cfg.w_confidence * c.confidence) := by
    rw [calculate_salience_score, qmul_eq, qmul_eq, qmul_eq, qadd_eq, qadd_eq]
  have h0 : 0 ≤ cfg.w_relevance * c.relevance + cfg.w_specificity * c.specificity +
      cfg.w_confidence * c.confidence :=
    add_nonneg (add_nonneg (mul_nonneg hwr hr0) (mul_nonneg hws hs0))
      (mul_nonneg hwc hc0)
  have h1 : cfg.w_relevance * c.relevance + cfg.w_specificity * c.specificity +
      cfg.w_confidence * c.confidence ≤ 1 := by
    calc cfg.w_relevance * c.relevance + cfg.w_specificity * c.specificity +
        cfg.w_confidence * c.confidence
        ≤ cfg.w_relevance * 1 + cfg.w_specificity * 1 + cfg.w_confidence * 1 :=
          add_le_add (add_le_add (mul_le_mul_of_nonneg_left hr1 hwr)
            (mul_le_mul_of_nonneg_left hs1 hws)) (mul_le_mul_of_nonneg_left hc1 hwc)
      _ = 1 := by rw [mul_one, mul_one, mul_one]; exact hsum
  obtain ⟨g0, g1⟩ := rnd3_bounds h0 h1
  exact ⟨heq, heq ▸ g0, heq ▸ g1⟩

/-- Witness for c9_salience_weighted_sum_range: the relevance-only weights
are nonnegative and sum to one, the sample candidate features lie in the
unit interval, and the resulting salience score lies in the unit interval. -/
theorem c9_witness :
    0 ≤ calculate_salience_score relevanceOnlyConfig sampleCand ∧
    calculate_salience_score relevanceOnlyConfig sampleCand ≤ 1 :=
  ⟨(c9_salience_weighted_sum_range relevanceOnlyConfig sampleCand
      (by decide) (by decide) (by decide) (by simp [relevanceOnlyConfig])
      (by decide) (by decide) (by decide) (by decide) (by decide) (by decide)).2.1,
   (c9_salience_weighted_sum_range relevanceOnlyConfig sampleCand
      (by decide) (by decide) (by decide) (by simp [relevanceOnlyConfig])
      (by decide) (by decide) (by decide) (by decide) (by decide) (by decide)).2.2⟩

/-- C10: text similarity is symmetric, equals one on any text with at least
one word compared to itself, equals zero when the word sets are disjoint,
and equals zero when either word set is empty. -/
theorem c10_similarity_properties (A B : String) :
    calculate_text_similarity A B = calculate_text_similarity B A ∧
    (wordSet A ≠ ∅ → calculate_text_similarity A A = 1) ∧
    (wordSet A ∩ wordSet B = ∅ → calculate_text_similarity A B = 0) ∧
    (wordSet A = ∅ ∨ wordSet B = ∅ → calculate_text_similarity A B = 0) := by
  refine ⟨?_, ?_, ?_, ?_⟩
  · by_cases hA : wordSet A = ∅ <;> by_cases hB : wordSet B = ∅ <;>
      simp [calculate_text_similarity, hA, hB, Finset.inter_comm, Finset.union_comm]
  · intro hA
    have hcard : 0 < (wordSet A).card :=
      Finset.card_pos.mpr (Finset.nonempty_iff_ne_empty.mpr hA)
    simp only [calculate_text_similarity, Finset.inter_self, Finset.union_self,
      or_self, if_neg hA, if_pos hcard]
    rw [Rat.mkRat_eq_div]
    exact div_self (by exact_mod_cast hcard.ne')
  · intro hAB
    by_cases hA : wordSet A = ∅
    · simp [calculate_text_similarity, hA]
    by_cases hB : wordSet B = ∅
    · simp [calculate_text_similarity, hB]
    simp only [calculate_text_similarity, hAB, Finset.card_empty, if_neg,
      or_self_iff, hA, hB, or_false]
    split_ifs <;> simp [Rat.mkRat_eq_div]
  · intro h
    simp only [calculate_text_similarity]
    rw [if_pos h]

/-- Witness for c10_similarity_properties at concrete texts. -/
theorem c10_witness :
    calculate_text_similarity "a b" "b a" = calculate_text_similarity "b a" "a b" ∧
    calculate_text_similarity "a b" "a b" = 1 ∧
    calculate_text_similarity "a b" "c d" = 0 ∧
    calculate_text_similarity "" "a" = 0 :=
  ⟨(c10_similarity_properties "a b" "b a").1,
   (c10_similarity_properties "a b" "c d").2.1 (by decide),
   (c10_similarity_properties "a b" "c d").2.2.1 (by decide),
   (c10_similarity_properties "" "a").2.2.2 (Or.inl (by decide))⟩

theorem dedupAgainstStored_residual (thr : ℚ) (stored : List StoredMemory)
    (cs : List CandidateMemory) :
    (dedupAgainstStored thr cs stored).2 =
      cs.filter (fun c => decide ((bestStoredMatch c stored).1 < thr)) := by
  induction cs with
  | nil => rfl
  | cons c cs ih =>
    rw [dedupAgainstStored]
    by_cases h : thr ≤ (bestStoredMatch c stored).1
    · rw [if_pos h]
      simp [List.filter_cons, not_lt.mpr h, ih]
    · rw [if_neg h]
      simp [List.filter_cons, not_le.mp h, ih]

/-- C2 counterexample: two identical candidates against an empty stored
window. The within-batch pass emits one merge decision (the second candidate
merges into the first), yet the returned residual list still contains both
candidates, so the residual list is not the set of candidates with no
decision emitted in either pass. -/
theorem c2_counterexample :
    ((deduplicate_memories (mkRat 17 20) [dupA, dupB] []).1.map
      (fun d => (d.action, d.merged_with))) = [(Action.merge, some "c0")] ∧
    (deduplicate_memories (mkRat 17 20) [dupA, dupB] []).2 = [dupA, dupB] := by
  decide

/-- C2 amended: the residual list returned by deduplicate_memories is exactly
the set of candidates that received no merge decision in the against-stored
(first) pass, i.e. whose best stored-window similarity is below the
threshold; candidates merged in the within-batch (second) pass remain in the
returned residual list. -/
theorem c2_residual_is_stored_pass_residual (thr : ℚ)
    (cs : List CandidateMemory) (stored : List StoredMemory) :
    (deduplicate_memories thr cs stored).2 =
      cs.filter (fun c => decide ((bestStoredMatch c stored).1 < thr)) := by
  show (dedupAgainstStored thr cs stored).2 = _
  exact dedupAgainstStored_residual thr stored cs

theorem getD_set_ne {α : Type} (l : List α) (m n : ℕ) (x dflt : α)
    (h : m ≠ n) : (l.set m x).getD n dflt = l.getD n dflt := by
  induction l generalizing m n with
  | nil => simp
  | cons a l ih =>
    cases m with
    | zero =>
      cases n with
      | zero => exact absurd rfl h
      | succ n => simp
    | succ m =>
      cases n with
      | zero => simp
      | succ n => simpa using ih m n (by omega)

theorem process_go_counts (f : ℕ → Option String) (g : ℕ → Bool)
    (scored : List (CandidateMemory × ℚ)) :
    ∀ (i : ℕ) (decs initial : List MemoryDecision),
    (process_go f g i scored decs initial).2 =
      (((List.range scored.length).map (fun k =>
          (loopContribution f g i scored decs initial k).dStored)).sum,
       ((List.range scored.length).map (fun k =>
          (loopContribution f g i scored decs initial k).dBuffered)).sum,
       ((List.range scored.length).map (fun k =>
          (loopContribution f g i scored decs initial k).dRejected)).sum) := by
  induction scored with
  | nil =>
    intro i decs initial
    simp [process_go]
  | cons p rest ih =>
    intro i decs initial
    have hzero : loopContribution f g i (p :: rest) decs initial 0 =
        execDecision (f i) (g i) p.1 p.2
          (decs.getD i (initial.getD i defaultDecision)) := by
      simp [loopContribution]
    have hsucc : ∀ (k : ℕ) (x : MemoryDecision),
        loopContribution f g (i + 1) rest (decs.set i x) initial k =
          loopContribution f g i (p :: rest) decs initial (k + 1) := by
      intro k x
      have harith : i + 1 + k = i + (k + 1) := by omega
      have hne : i ≠ i + (k + 1) := by omega
      simp only [loopContribution, List.getElem?_cons_succ, harith,
        getD_set_ne decs i (i + (k + 1)) x _ hne]
    simp only [process_go]
    rw [ih (i + 1)
      (decs.set i (execDecision (f i) (g i) p.1 p.2
        (decs.getD i (initial.getD i defaultDecision))).decision) initial]
    simp only [hsucc, List.length_cons, List.range_succ_eq_map, List.map_cons,
      List.sum_cons, List.map_map, Function.comp_def, hzero]

/-- C4: when a keep decision meets a storage failure, the execution of that
candidate downgrades the decision in place to buffer with a reason starting
with the text "Storage failed", contributes nothing to the stored counter,
and contributes one buffered (on buffering success) or one rejected (on
buffering failure); a buffer decision whose buffering attempt fails is
counted as rejected with the decision unchanged; and the counters of a batch
are the sum of per-candidate contributions, each computed from that
candidate alone, so one candidate failing never affects its siblings. -/
theorem c4_storage_failure_containment (c : CandidateMemory) (score : ℚ)
    (d : MemoryDecision) (e : String) (bOk : Bool) :
    (d.action = Action.keep →
      (execDecision (some e) bOk c score d).decision.action = Action.buffer ∧
      (∃ rest, (execDecision (some e) bOk c score d).decision.reason =
        "Storage failed" ++ rest) ∧
      (execDecision (some e) bOk c score d).dStored = 0 ∧
      (bOk = true → (execDecision (some e) bOk c score d).dBuffered = 1 ∧
        (execDecision (some e) bOk c score d).dRejected = 0) ∧
      (bOk = false → (execDecision (some e) bOk c score d).dBuffered = 0 ∧
        (execDecision (some e) bOk c score d).dRejected = 1)) ∧
    (d.action = Action.buffer → ∀ sres : Option String,
      execDecision sres false c score d =
        { decision := d, dStored := 0, dBuffered := 0, dRejected := 1 }) ∧
    (∀ (f : ℕ → Option String) (g : ℕ → Bool)
       (scored : List (CandidateMemory × ℚ)) (alls inits : List MemoryDecision),
      (process_decisions f g scored alls inits).2 =
        (((List.range scored.length).map (fun k =>
            (loopContribution f g 0 scored alls inits k).dStored)).sum,
         ((List.range scored.length).map (fun k =>
            (loopContribution f g 0 scored alls inits k).dBuffered)).sum,
         ((List.range scored.length).map (fun k =>
            (loopContribution f g 0 scored alls inits k).dRejected)).sum)) := by
  refine ⟨?_, ?_, ?_⟩
  · intro hk
    refine ⟨by cases bOk <;> simp [execDecision, hk],
            ⟨", buffering instead: " ++ e, by cases bOk <;>
              simp [execDecision, hk, ← String.append_assoc]⟩,
            by cases bOk <;> simp [execDecision, hk],
            ?_, ?_⟩
    · intro hb; subst hb; simp [execDecision, hk]
    · intro hb; subst hb; simp [execDecision, hk]
  · intro hb sres
    simp [execDecision, hb]
  · intro f g scored alls inits
    exact process_go_counts f g scored 0 alls inits

/-- Witness for c4_storage_failure_containment: a keep decision with a failed
store and a successful buffering ends as buffer with one buffered, zero
stored. -/
theorem c4_witness :
    (execDecision (some "db down") true sampleCand 1 keepDec).decision.action =
      Action.buffer ∧
    (execDecision (some "db down") true sampleCand 1 keepDec).dStored = 0 ∧
    (execDecision (some "db down") true sampleCand 1 keepDec).dBuffered = 1 :=
  ⟨((c4_storage_failure_containment sampleCand 1 keepDec "db down" true).1 rfl).1,
   ((c4_storage_failure_containment sampleCand 1 keepDec "db down" true).1 rfl).2.2.1,
   (((c4_storage_failure_containment sampleCand 1 keepDec "db down" true).1 rfl).2.2.2.1 rfl).1⟩

/-- C5: whenever the buffered record is found, approving with a failing
store leaves the whole state unchanged and reports failure (the buffered
record stays available for retry), while approving with a working store
reports success, removes exactly the buffered record, and appends a stored
record whose final content is the buffered candidate content — so deletion
never precedes successful persistence. -/
theorem c5_approve_persistence_ordering (s : StoreState) (mid : String)
    (notes : Option String) (b : BufferedMemory)
    (hfind : s.buffered.find? (fun x => x.id == some mid) = some b) :
    approve_buffered_memory s false mid notes = (s, false) ∧
    (approve_buffered_memory s true mid notes).2 = true ∧
    (approve_buffered_memory s true mid notes).1.buffered =
      s.buffered.eraseP (fun x => x.id == some mid) ∧
    ∃ sm : StoredMemory,
      (approve_buffered_memory s true mid notes).1.stored = s.stored ++ [sm] ∧
      sm.final_content = b.candidate.content := by
  refine ⟨?_, ?_, ?_, ?_⟩
  · simp [approve_buffered_memory, hfind, store_memory]
  · simp [approve_buffered_memory, hfind, store_memory]
  · simp [approve_buffered_memory, hfind, store_memory]
  · exact ⟨{ id := some (freshId s.next_id), candidate := b.candidate,
             decision := { action := Action.keep, reason := "Approved by admin",
                           admin_notes := notes },
             final_content := b.candidate.content, embedding := some [] },
           by simp [approve_buffered_memory, hfind, store_memory], rfl⟩

/-- Witness for c5_approve_persistence_ordering on the one-record buffer
state. -/
theorem c5_witness :
    approve_buffered_memory bufState false "b1" none = (bufState, false) ∧
    (approve_buffered_memory bufState true "b1" none).2 = true :=
  ⟨(c5_approve_persistence_ordering bufState "b1" none bufRec (by decide)).1,
   (c5_approve_persistence_ordering bufState "b1" none bufRec (by decide)).2.1⟩

theorem find?_eraseP_of_countP_le_one {α : Type} (p : α → Bool) (l : List α)
    (h : l.countP p ≤ 1) : (l.eraseP p).find? p = none := by
  induction l with
  | nil => rfl
  | cons a l ih =>
    cases hpa : p a with
    | true =>
      have hl : l.countP p = 0 := by
        have := List.countP_cons_of_pos p l hpa
        omega
      rw [List.eraseP_cons_of_pos hpa, List.find?_eq_none]
      intro x hx
      simpa using List.countP_eq_zero.mp hl x hx
    | false =>
      have hpa' : ¬ p a = true := by simp [hpa]
      rw [List.eraseP_cons_of_neg hpa']
      have hcount : l.countP p ≤ 1 := by
        have := List.countP_cons_of_neg p l hpa'
        omega
      rw [List.find?_cons_of_neg _ hpa']
      exact ih hcount

/-- C7: resolving (approve or reject) a buffered id that is absent reports
failure and changes nothing; and when the id occurs exactly once, a first
resolve (with its store insert succeeding in the approve case) reports
success and any second resolve on the same id reports failure — the second
call never silently succeeds again. -/
theorem c7_resolve_twice_single_success (s : StoreState) (mid : String)
    (a1 a2 : AdminAction) (n1 n2 : Option String) (ok1 ok2 : Bool) :
    (s.buffered.find? (fun b => b.id == some mid) = none →
      resolve_buffered s ok1 a1 mid n1 = (s, false)) ∧
    (s.buffered.countP (fun b => b.id == some mid) = 1 →
      (a1 = AdminAction.approve → ok1 = true) →
      (resolve_buffered s ok1 a1 mid n1).2 = true ∧
      (resolve_buffered (resolve_buffered s ok1 a1 mid n1).1 ok2 a2 mid n2).2 =
        false) := by
  constructor
  · intro h
    cases a1 <;>
      simp [resolve_buffered, approve_buffered_memory, reject_buffered_memory, h]
  · intro hc hok
    have hpos : 0 < s.buffered.countP (fun b => b.id == some mid) := by omega
    obtain ⟨b0, hb0mem, hb0p⟩ := List.countP_pos_iff.mp hpos
    have hfind : (s.buffered.find? (fun b => b.id == some mid)).isSome :=
      List.find?_isSome.mpr ⟨b0, hb0mem, hb0p⟩
    obtain ⟨b, hb⟩ := Option.isSome_iff_exists.mp hfind
    have herase : ((resolve_buffered s ok1 a1 mid n1).1).buffered =
        s.buffered.eraseP (fun b => b.id == some mid) ∧
        (resolve_buffered s ok1 a1 mid n1).2 = true := by
      cases a1 with
      | approve =>
        have hok1 : ok1 = true := hok rfl
        subst hok1
        simp [resolve_buffered, approve_buffered_memory, hb, store_memory]
      | reject =>
        simp [resolve_buffered, reject_buffered_memory, hb]
    have hnone : ((s.buffered.eraseP (fun b => b.id == some mid)).find?
        (fun b => b.id == some mid)) = none :=
      find?_eraseP_of_countP_le_one _ _ (le_of_eq hc)
    obtain ⟨herase1, herase2⟩ := herase
    refine ⟨herase2, ?_⟩
    revert herase1
    generalize (resolve_buffered s ok1 a1 mid n1).1 = st
    intro herase1
    have hfind2 : st.buffered.find? (fun b => b.id == some mid) = none := by
      rw [herase1]; exact hnone
    cases a2 <;>
      simp [resolve_buffered, approve_buffered_memory, reject_buffered_memory,
        hfind2]

/-- Witness for c7_resolve_twice_single_success: approve then reject on the
single buffered id yields one success and one failure, and resolving a
missing id fails. -/
theorem c7_witness :
    resolve_buffered bufState true AdminAction.reject "missing" none =
      (bufState, false) ∧
    (resolve_buffered bufState true AdminAction.approve "b1" none).2 = true ∧
    (resolve_buffered
      (resolve_buffered bufState true AdminAction.approve "b1" none).1
      true AdminAction.reject "b1" none).2 = false :=
  ⟨(c7_resolve_twice_single_success bufState "missing" AdminAction.reject
      AdminAction.reject none none true true).1 (by decide),
   ((c7_resolve_twice_single_success bufState "b1" AdminAction.approve
      AdminAction.reject none none true true).2 (by decide) (fun _ => rfl)).1,
   ((c7_resolve_twice_single_success bufState "b1" AdminAction.approve
      AdminAction.reject none none true true).2 (by decide) (fun _ => rfl)).2⟩

/-- C1 (code defect demonstration): a single-candidate batch whose content
duplicates a stored memory and whose score clears its type threshold. The
Deduper emits a merge decision for the only candidate, but the decision loop
reads all_decisions[i] where all_decisions = initial_decisions followed by
the dedup decisions, so for every index below the candidate count it reads
the Scorer decision; the candidate is stored (stored_count = 1) even though
a merge decision exists for it, and the response decision set carries both
the executed keep and the merge marker for this one candidate. -/
theorem c1_merge_does_not_override :
    (extract_and_store defaultConfig (fun _ => none) (fun _ => true)
      [sampleCand] [sampleStored]).candidates.length = 1 ∧
    (extract_and_store defaultConfig (fun _ => none) (fun _ => true)
      [sampleCand] [sampleStored]).stored_count = 1 ∧
    ((extract_and_store defaultConfig (fun _ => none) (fun _ => true)
      [sampleCand] [sampleStored]).decisions.map (fun d => d.action)) =
      [Action.keep, Action.merge] := by
  decide

/-- C3 (code defect demonstration): three pairwise near-duplicate candidates
with ids c0, c1, c2 where c1 has the highest salience and c2 the lowest.
The first emitted decision marks candidate c0 as merged into c1; yet the
within-batch pass keeps comparing c0 inside the same inner loop (only the
inner index is checked against the processed set), and the second decision
merges c2 into the already merged-away c0 — a candidate marked for merge is
not excluded from all further comparisons, and a merge decision can
reference a non-surviving candidate. -/
theorem c3_merged_candidate_not_excluded :
    triA.id = some "c0" ∧ triB.id = some "c1" ∧ triC.id = some "c2" ∧
    ((dedupCandidates (mkRat 17 20) [triA, triB, triC]).map
      (fun d => (d.action, d.merged_with))) =
      [(Action.merge, some "c1"), (Action.merge, some "c0")] := by
  decide

/-- C6 (code defect demonstration): the approve path has no modified-content
parameter anywhere (neither the route handler nor the storage layer passes
the AdminReviewRequest field on), so approving a buffered memory always
stores the original buffered candidate content as final_content — here the
original "I like short walks.", not an admin-modified string. -/
theorem c6_modified_content_ignored :
    (approve_buffered_memory bufState true "b1" (some "admin notes")).2 = true ∧
    ((approve_buffered_memory bufState true "b1" (some "admin notes")).1.stored.map
      (fun m => m.final_content)) = ["I like short walks."] ∧
    ("I like short walks." : String) ≠ "I enjoy long hikes." := by
  decide

end MemSvc
